import Mathlib

/-!
Verification development for the natural-language stock-screening engine.

The definitions below are shallow embeddings of the TypeScript sources:

* `calculateRSI`, `calculateCCI`, `calculateSMAFromValues`, `compareValues`,
  `handleIndicatorThreshold`, `handlePriceVsMA`, `handleVolumeVolatility`,
  `applyCondition`, `groupBySymbol`, `screenStocks` embed
  `supabase/functions/stock-screener/index.ts` (the same functions appear
  verbatim in the edge-function variant `unnamed/part_001`, lines 1014-1196).
* `compareValues01` embeds the older variant of `compareValues` at
  `unnamed/part_001` lines 387-396 (epsilon 0.01).
* namespace `Ind` embeds the indicator library and evaluator of
  `unnamed/part_003` (`indicators.ts` / `screener.ts`).
* namespace `SE` embeds `src/lib/screenExecutor.ts`.
* `tryModelWithConfidence`, `parseWithLLMs` embed the OpenRouter fallback
  compiler of `unnamed/part_001` lines 802-926.
* `parseQueryRegex` embeds the rule-based parser of `unnamed/part_005`.

JavaScript numbers are modelled as rationals (`ℚ`); exceptional control flow
(`throw` caught by a surrounding `try`) is modelled with `Option`.
-/

set_option maxRecDepth 100000
set_option allowUnsafeReducibility true
attribute [local semireducible] Rat.add Rat.mul Rat.inv Rat.sub Rat.ofScientific

/-- One OHLCV bar.  Field `opn` renders the source's `open` field
(`open` is reserved in Lean). `date` is an abstract sortable timestamp. -/
structure StockData where
  symbol : String
  date : ℕ
  opn : ℚ
  high : ℚ
  low : ℚ
  close : ℚ
  volume : ℚ
  deriving DecidableEq, Repr

/-- A parsed screening condition.  The TypeScript sources declare several
 structurally-compatible duck-typed interfaces (`ScreenerCondition` in the
 edge functions, `ParsedCondition` in `part_005`/`part_003`); this structure
 carries the union of their optional fields. -/
structure ParsedCondition where
  category : ℕ
  indicator : Option String := none
  window : Option ℕ := none
  op : String
  value : Option ℚ := none
  low : Option ℚ := none
  high : Option ℚ := none
  ma_type : Option String := none
  benchmark : Option String := none
  reference : Option String := none
  pattern_type : Option String := none
  direction : Option String := none
  screener : Option String := none
  timeframe : Option String := none
  deriving DecidableEq, Repr

/-- The wire-level parse result (`ParsedQuery` in the edge functions,
 `ParsedFilter` in the front end). -/
structure ParsedQuery where
  category : ℕ
  conditions : List ParsedCondition
  confidence : String
  parser : String
  modelUsed : Option String := none
  llmFallback : Option String := none
  modelsAttempted : List String := []
  deriving DecidableEq, Repr

/-- JavaScript array indexing `l[i]`: negative or out-of-range indices give
`undefined`, modelled as `none`. -/
def jsIdx {α : Type} (l : List α) (i : ℤ) : Option α :=
  if i < 0 then none else l.get? i.toNat

/-- JavaScript `l.slice(-n)` (`n = 0` gives the whole array since `-0 = 0`). -/
def sliceLast {α : Type} (l : List α) (n : ℕ) : List α :=
  if n = 0 then l else l.drop (l.length - n)

/-- JavaScript `l.slice(-n, -1)` for `n ≥ 1`: the elements from index
`max (length - n) 0` up to (excluding) the last one. -/
def sliceLastDropLast {α : Type} (l : List α) (n : ℕ) : List α :=
  (l.drop (l.length - n)).dropLast

/-- Comparison where either side may be JavaScript `undefined`
(`undefined ≤ x` and `x ≤ undefined` are both false). -/
def optLE (a b : Option ℚ) : Bool :=
  match a, b with
  | some x, some y => decide (x ≤ y)
  | _, _ => false

/-- Strict variant of `optLE`. -/
def optLT (a b : Option ℚ) : Bool :=
  match a, b with
  | some x, some y => decide (x < y)
  | _, _ => false

/-- Embeds `compareValues` of `supabase/functions/stock-screener/index.ts`
 lines 537-546 (identical at `unnamed/part_001` lines 1188-1196);
 `==` uses the epsilon `0.0001`. -/
def compareValues (actual : ℚ) (op : String) (target : ℚ) : Bool :=
  if op = ">" then decide (target < actual)
  else if op = ">=" then decide (target ≤ actual)
  else if op = "<" then decide (actual < target)
  else if op = "<=" then decide (actual ≤ target)
  else if op = "==" then decide (|actual - target| < 1 / 10000)
  else false

/-- Embeds the older `compareValues` variant at `unnamed/part_001`
 lines 387-396, whose `==` epsilon is `0.01`. -/
def compareValues01 (actual : ℚ) (op : String) (target : ℚ) : Bool :=
  if op = ">" then decide (target < actual)
  else if op = "<" then decide (actual < target)
  else if op = ">=" then decide (target ≤ actual)
  else if op = "<=" then decide (actual ≤ target)
  else if op = "==" then decide (|actual - target| < 1 / 100)
  else false

/-- The list of close-to-close changes visited by the RSI loop
`for (i = closes.length - period; i < closes.length; i++)`, each being
`closes[i] - closes[i-1]`: exactly the last `period` adjacent deltas. -/
def rsiChanges (closes : List ℚ) (period : ℕ) : List ℚ :=
  ((closes.zip closes.tail).map fun p => p.2 - p.1).drop (closes.length - 1 - period)

/-- Embeds `calculateRSI` of `supabase/functions/stock-screener/index.ts`
 lines 499-518 (identical at `unnamed/part_001` lines 1150-1169).
 `none` models the `Insufficient data` exception. -/
def calculateRSI (data : List StockData) (period : ℕ) : Option ℚ :=
  if data.length < period + 1 then none
  else
    let closes := data.map (·.close)
    let gains := (rsiChanges closes period).foldl (fun g c => if 0 < c then g + c else g) 0
    let losses := (rsiChanges closes period).foldl (fun l c => if 0 < c then l else l + |c|) 0
    let avgGain := gains / (period : ℚ)
    let avgLoss := losses / (period : ℚ)
    if avgLoss = 0 then some 100
    else some (100 - 100 / (1 + avgGain / avgLoss))

/-- Sum of the positive deltas, as the spec words it ("sum positive
closes-over-closes deltas into gains"). -/
def rsiGainSum (closes : List ℚ) (period : ℕ) : ℚ :=
  ((rsiChanges closes period).map fun c => max c 0).sum

/-- Sum of the absolute negative deltas, as the spec words it. -/
def rsiLossSum (closes : List ℚ) (period : ℕ) : ℚ :=
  ((rsiChanges closes period).map fun c => max (-c) 0).sum

/-- The RSI formula exactly as the specification states it:
`avgGain = gains/period`, `avgLoss = losses/period`, `100` when
`avgLoss = 0`, else `100 - 100/(1 + avgGain/avgLoss)`. -/
def rsiSpec (closes : List ℚ) (period : ℕ) : ℚ :=
  let avgGain := rsiGainSum closes period / (period : ℚ)
  let avgLoss := rsiLossSum closes period / (period : ℚ)
  if avgLoss = 0 then 100 else 100 - 100 / (1 + avgGain / avgLoss)

/-- Embeds `calculateSMAFromValues` (index.ts lines 532-535): mean of the
 whole array, `0` on the empty array. -/
def calculateSMAFromValues (values : List ℚ) : ℚ :=
  if values = [] then 0 else values.sum / (values.length : ℚ)

/-- Embeds `calculateCCI` (index.ts lines 520-530).  `none` models the
 `Insufficient data` exception; it also covers `meanDeviation = 0`, where the
 source produces `NaN` (`0/0`, since all typical prices then coincide with
 their mean) and every later comparison on it is false — observably the same
 `pass = false` as the exception path. -/
def calculateCCI (data : List StockData) (period : ℕ) : Option ℚ :=
  if data.length < period then none
  else
    let recentData := sliceLast data period
    let typicalPrices := recentData.map fun d => (d.high + d.low + d.close) / 3
    let sma := typicalPrices.sum / (period : ℚ)
    let meanDeviation := (typicalPrices.map fun tp => |tp - sma|).sum / (period : ℚ)
    match typicalPrices.getLast? with
    | none => none
    | some latestTP =>
      if meanDeviation = 0 then none
      else some ((latestTP - sma) / ((3 / 200) * meanDeviation))

/-- Result record of the per-condition handlers in index.ts. -/
structure CondResult where
  pass : Bool
  value : ℚ
  indicator : String
  deriving DecidableEq, Repr

/-- Embeds `handleIndicatorThreshold` (index.ts lines 425-447).
 `cond.window || 14` maps `0`/absent to 14; `cond.value || 0` keeps `0`. -/
def handleIndicatorThreshold (data : List StockData) (cond : ParsedCondition) : CondResult :=
  let ind := cond.indicator.getD ""
  let win := match cond.window with | some w => if w = 0 then 14 else w | none => 14
  let targetVal := cond.value.getD 0
  if ind = "rsi" then
    match calculateRSI data win with
    | none => { pass := false, value := 0, indicator := ind }
    | some latest => { pass := compareValues latest cond.op targetVal, value := latest, indicator := ind }
  else if ind = "cci" then
    match calculateCCI data win with
    | none => { pass := false, value := 0, indicator := ind }
    | some latest => { pass := compareValues latest cond.op targetVal, value := latest, indicator := ind }
  else { pass := false, value := 0, indicator := ind }

/-- Embeds `handlePriceVsMA` (index.ts lines 449-474): the moving average is
 always a plain mean of the trailing window (`ma_type` only labels the
 output); for the crossover operators the previous close is compared against
 the mean of the window ending one bar earlier (`closes.slice(-win-1, -1)`).
 The source reads `cond.window!`; we model an absent window as `0`. -/
def handlePriceVsMA (data : List StockData) (cond : ParsedCondition) : CondResult :=
  let maType := cond.ma_type.getD ""
  let win := cond.window.getD 0
  let closes := data.map (·.close)
  let ma := calculateSMAFromValues (sliceLast closes win)
  match jsIdx data ((data.length : ℤ) - 1) with
  | none => { pass := false, value := 0, indicator := maType ++ "_" ++ toString win }
  | some lastRow =>
    let price := lastRow.close
    let prevPrice := (jsIdx data ((data.length : ℤ) - 2)).map (·.close)
    let prevMA := calculateSMAFromValues (sliceLastDropLast closes (win + 1))
    if cond.op = "crossed_above" then
      { pass := optLE prevPrice (some prevMA) && decide (ma < price),
        value := price, indicator := maType ++ "_" ++ toString win }
    else if cond.op = "crossed_below" then
      { pass := optLE (some prevMA) prevPrice && decide (price < ma),
        value := price, indicator := maType ++ "_" ++ toString win }
    else
      { pass := if cond.op = ">" then decide (ma < price) else decide (price < ma),
        value := price, indicator := maType ++ "_" ++ toString win }

/-- Embeds `handleVolumeVolatility` (index.ts lines 476-495).  When the
 volume SMA is zero every volume in the window is zero (volumes are
 non-negative), so the source's `ratio` is `0/0 = NaN` and the `>=`
 comparison is false; we model that branch as a failed pass directly. -/
def handleVolumeVolatility (data : List StockData) (cond : ParsedCondition) : CondResult :=
  let ind := cond.indicator.getD ""
  let win := match cond.window with | some w => if w = 0 then 20 else w | none => 20
  let targetVal := cond.value.getD 0
  if ind = "volume_sma" then
    let volumes := (sliceLast data win).map (·.volume)
    let volumeSMA := calculateSMAFromValues volumes
    match jsIdx data ((data.length : ℤ) - 1) with
    | none => { pass := false, value := 0, indicator := ind }
    | some lastRow =>
      if volumeSMA = 0 then { pass := false, value := 0, indicator := "volume_spike" }
      else
        { pass := decide (targetVal ≤ lastRow.volume / volumeSMA),
          value := lastRow.volume / volumeSMA, indicator := "volume_spike" }
  else { pass := false, value := 0, indicator := ind }

/-- Embeds `applyCondition` (index.ts lines 413-423). -/
def applyCondition (data : List StockData) (cond : ParsedCondition) : CondResult :=
  if cond.category = 1 then handleIndicatorThreshold data cond
  else if cond.category = 2 then handlePriceVsMA data cond
  else if cond.category = 5 then handleVolumeVolatility data cond
  else { pass := false, value := 0, indicator := "unknown" }

/-- First-occurrence-ordered list of distinct symbols, as produced by the
 JavaScript `Map` insertion order in `groupBySymbol`. -/
def uniqueKeys (l : List String) : List String :=
  l.foldl (fun acc s => if acc.contains s then acc else acc ++ [s]) []

/-- Chronological sort of one symbol's rows (the source sorts each group by
 parsed date; only sortedness and the multiset of rows are observable). -/
def sortByDate (l : List StockData) : List StockData :=
  l.insertionSort fun a b => a.date ≤ b.date

/-- Embeds `groupBySymbol` (index.ts lines 396-411): group rows by symbol in
 first-encounter order, each group holding its rows sorted chronologically. -/
def groupBySymbol (data : List StockData) : List (String × List StockData) :=
  (uniqueKeys (data.map (·.symbol))).map fun k =>
    (k, sortByDate (data.filter fun r => r.symbol = k))

/-- One row of the screening output (index.ts lines 382-389). -/
structure ResultRow where
  symbol : String
  close : ℚ
  volume : ℚ
  change : ℚ
  indicator_value : ℚ
  indicator_name : String
  deriving DecidableEq, Repr

/-- Embeds `screenStocks` (index.ts lines 365-394, identical at
 `unnamed/part_001` lines 1016-1045): skip groups shorter than 50 bars,
 evaluate `filter.conditions[0]`, and emit a result row per passing symbol.
 The inner `getLast?` match is never `none` on the executed path (the group
 has at least 50 rows). -/
def screenStocks (data : List StockData) (filter : ParsedQuery) : List ResultRow :=
  (groupBySymbol data).flatMap fun kg =>
    let symbolData := kg.2
    if symbolData.length < 50 then []
    else
      match filter.conditions.head? with
      | none => []
      | some cond =>
        let result := applyCondition symbolData cond
        if result.pass then
          match symbolData.getLast? with
          | none => []
          | some lastRow =>
            let change :=
              match jsIdx symbolData ((symbolData.length : ℤ) - 2) with
              | some prevRow => (lastRow.close - prevRow.close) / prevRow.close * 100
              | none => 0
            [{ symbol := lastRow.symbol, close := lastRow.close, volume := lastRow.volume,
               change := change, indicator_value := result.value,
               indicator_name := result.indicator }]
        else []

/-! ### Indicator library and evaluator of `unnamed/part_003` -/

namespace Ind

/-- Modelled from the spec: the `technicalindicators` SMA used by
 `calculateSMA` in `unnamed/part_003` is the "standard windowed definition
 over close" (§4.1) — the series of trailing means of each consecutive
 `period`-length window, aligned so its last element is the mean of the last
 `period` values.  The library itself is an external dependency and is not
 part of the repository sources. -/
def smaSeries (period : ℕ) (values : List ℚ) : List ℚ :=
  if period = 0 then []
  else (List.range (values.length + 1 - period)).map fun i =>
    ((values.drop i).take period).sum / (period : ℚ)

/-- Recursive tail of the exponential moving average. -/
def emaFrom (k : ℚ) (prev : ℚ) : List ℚ → List ℚ
  | [] => []
  | v :: rest =>
    let e := (v - prev) * k + prev
    e :: emaFrom k e rest

/-- Modelled from the spec: the `technicalindicators` EMA — "standard
 recursive definition" (§4.1): seeded with the mean of the first `period`
 values, then `e = (v - prev) * k + prev` with `k = 2/(period+1)`. -/
def emaSeries (period : ℕ) (values : List ℚ) : List ℚ :=
  if period = 0 ∨ values.length < period then []
  else
    let seed := (values.take period).sum / (period : ℚ)
    seed :: emaFrom (2 / ((period : ℚ) + 1)) seed (values.drop period)

/-- Modelled from the spec: the `technicalindicators` WMA — "standard
 windowed definition" (§4.1): linearly weighted trailing means, the most
 recent value carrying weight `period`. -/
def wmaSeries (period : ℕ) (values : List ℚ) : List ℚ :=
  if period = 0 then []
  else (List.range (values.length + 1 - period)).map fun i =>
    let window := (values.drop i).take period
    ((window.zip (List.range period)).map fun p => p.1 * ((p.2 : ℚ) + 1)).sum
      / (((period : ℚ) * ((period : ℚ) + 1)) / 2)

/-- Embeds `calculateDEMA` (`unnamed/part_003` lines 209-222). -/
def demaSeries (period : ℕ) (values : List ℚ) : List ℚ :=
  let ema1 := emaSeries period values
  let ema2 := emaSeries period ema1
  let offset := ema1.length - ema2.length
  (List.range ema2.length).map fun i => 2 * ema1.getD (i + offset) 0 - ema2.getD i 0

/-- Embeds `calculateTEMA` (`unnamed/part_003` lines 224-239). -/
def temaSeries (period : ℕ) (values : List ℚ) : List ℚ :=
  let ema1 := emaSeries period values
  let ema2 := emaSeries period ema1
  let ema3 := emaSeries period ema2
  let offset1 := ema1.length - ema2.length
  let offset2 := ema2.length - ema3.length
  (List.range ema3.length).map fun i =>
    3 * ema1.getD (i + offset1 + offset2) 0 - 3 * ema2.getD (i + offset2) 0 + ema3.getD i 0

/-- Target of a comparison: a number or a `[low, high]` pair. -/
inductive Target where
  | num (q : ℚ)
  | pair (lo hi : ℚ)
  deriving DecidableEq, Repr

/-- Embeds `compare` of `unnamed/part_003` lines 502-523: `between` checks a
 pair; otherwise the numeric target is the number itself or the pair's first
 component, and unknown operators fall through to `false`. -/
def cmp (value : ℚ) (op : String) (target : Target) : Bool :=
  match target, op with
  | Target.pair lo hi, "between" => decide (lo ≤ value) && decide (value ≤ hi)
  | _, _ =>
    let targetNum := match target with | Target.num t => t | Target.pair lo _ => lo
    if op = ">" then decide (targetNum < value)
    else if op = ">=" then decide (targetNum ≤ value)
    else if op = "<" then decide (value < targetNum)
    else if op = "<=" then decide (value ≤ targetNum)
    else if op = "==" then decide (|value - targetNum| < 1 / 10000)
    else false

/-- Result record of the `part_003` condition handlers. -/
structure ConditionResult where
  pass : Bool
  value : ℚ
  indicator : String
  window : Option ℕ := none
  deriving DecidableEq, Repr

/-- Embeds `handlePriceVsMA` of `unnamed/part_003` lines 638-689: the MA
 series for the requested type is computed over the whole close series, and
 the crossover operators compare the previous close against the previous
 bar's MA value (`ma[ma.length - 2]`) and the current close against the
 current one (`ma[ma.length - 1]`).  `none` lookups model JavaScript
 `undefined`, whose comparisons are all false; the outer `match` on the last
 row models the `try/catch` around `data[data.length - 1].close`. -/
def handlePriceVsMA (data : List StockData) (cond : ParsedCondition) : ConditionResult :=
  let maType := cond.ma_type.getD ""
  let win := cond.window.getD 0
  let closes := data.map (·.close)
  let ma : List ℚ :=
    if maType = "sma" then smaSeries win closes
    else if maType = "ema" then emaSeries win closes
    else if maType = "wma" then wmaSeries win closes
    else if maType = "dema" then demaSeries win closes
    else if maType = "tema" then temaSeries win closes
    else smaSeries win closes
  match jsIdx data ((data.length : ℤ) - 1) with
  | none => { pass := false, value := 0, indicator := maType ++ "_" ++ toString win, window := some win }
  | some lastRow =>
    let price := lastRow.close
    let maValue := jsIdx ma ((ma.length : ℤ) - 1)
    let prevPrice := (jsIdx data ((data.length : ℤ) - 2)).map (·.close)
    let prevMA := jsIdx ma ((ma.length : ℤ) - 2)
    if cond.op = "crossed_above" then
      { pass := optLE prevPrice prevMA && optLT maValue (some price),
        value := price, indicator := maType ++ "_" ++ toString win, window := some win }
    else if cond.op = "crossed_below" then
      { pass := optLE prevMA prevPrice && optLT (some price) maValue,
        value := price, indicator := maType ++ "_" ++ toString win, window := some win }
    else if cond.op = "proximity_within" then
      { pass := match maValue with
          | some m => decide (|price - m| / m ≤ cond.value.getD (1 / 100))
          | none => false,
        value := price, indicator := maType ++ "_" ++ toString win, window := some win }
    else
      { pass := match maValue with
          | some m => cmp price cond.op (Target.num m)
          | none => false,
        value := price, indicator := maType ++ "_" ++ toString win, window := some win }

/-- Fold-based minimum of a list, as `Math.min(...)` over a nonempty spread
 (`0` stands for the empty case, which the callers below never hit with
 nonempty data). -/
def listMin (l : List ℚ) : ℚ :=
  match l with
  | [] => 0
  | x :: xs => xs.foldl min x

/-- Fold-based maximum of a list, as `Math.max(...)`. -/
def listMax (l : List ℚ) : ℚ :=
  match l with
  | [] => 0
  | x :: xs => xs.foldl max x

/-- Embeds `calculatePercentageChangeFromRef` (`unnamed/part_003` lines
 175-202).  `none` models the empty-series case, where the source's
 `currentPrice` is `undefined` and the result `NaN`. -/
def calculatePercentageChangeFromRef (data : List StockData) (refType : String) : Option ℚ :=
  let closes := data.map (·.close)
  match closes.getLast? with
  | none => none
  | some currentPrice =>
    let refPrice :=
      if refType = "1d_low" then listMin (sliceLast closes 1)
      else if refType = "1w_low" then listMin (sliceLast closes 5)
      else if refType = "1m_low" then listMin (sliceLast closes 21)
      else if refType = "52w_low" then listMin (sliceLast closes 252)
      else if refType = "52w_high" then listMax (sliceLast closes 252)
      else currentPrice
    some ((currentPrice - refPrice) / refPrice)

end Ind

/-! ### Front-end executor `src/lib/screenExecutor.ts` -/

namespace SE

/-- Embeds `compare` of `screenExecutor.ts` lines 30-42.  For the numeric
 operators a pair target is coerced by JavaScript to `NaN` and every
 comparison on it is false; `between` with a numeric target would throw on
 destructuring, but no caller produces that combination — modelled as
 `false`. -/
def cmp (value : ℚ) (op : String) (target : Ind.Target) : Bool :=
  match target, op with
  | Ind.Target.pair lo hi, "between" => decide (lo ≤ value) && decide (value ≤ hi)
  | Ind.Target.pair _ _, _ => false
  | Ind.Target.num _, "between" => false
  | Ind.Target.num t, _ =>
    if op = ">" then decide (t < value)
    else if op = ">=" then decide (t ≤ value)
    else if op = "<" then decide (value < t)
    else if op = "<=" then decide (value ≤ t)
    else if op = "==" then decide (|value - t| < 1 / 10000)
    else false

/-- Embeds `calculateMA` of `screenExecutor.ts` lines 116-149: dispatch on
 the lowercased MA type, compute the `technicalindicators` series and return
 its last element; `null` (here `none`) when the series is shorter than the
 window, the type is unsupported, or the library signalled an error. -/
def calculateMA (stockGroup : List StockData) (maType : String) (window : ℕ) : Option ℚ :=
  let values := stockGroup.map (·.close)
  let mt := String.mk (maType.data.map Char.toLower)
  if values.length < window then none
  else if mt = "sma" then (Ind.smaSeries window values).getLast?
  else if mt = "ema" then (Ind.emaSeries window values).getLast?
  else if mt = "wma" then (Ind.wmaSeries window values).getLast?
  else none

/-- Result record of `screenExecutor.ts`'s `applyCondition`. -/
structure SEResult where
  passed : Bool
  value : Option ℚ
  indicator : String
  deriving DecidableEq, Repr

/-- Embeds the category-2 branch of `applyCondition` in `screenExecutor.ts`
 lines 167-189.  Note that for `crossed_above`/`crossed_below` the previous
 close is compared against `maValue` — the **current** bar's MA value —
 unlike the `part_003` evaluator.  The caller guarantees a nonempty group
 (the source would throw on `stockGroup[stockGroup.length - 1]` otherwise). -/
def applyConditionCat2 (stockGroup : List StockData) (cond : ParsedCondition) : SEResult :=
  match SE.calculateMA stockGroup (cond.ma_type.getD "") (cond.window.getD 0) with
  | none => { passed := false, value := none, indicator := cond.ma_type.getD "" }
  | some maValue =>
    match stockGroup.getLast? with
    | none => { passed := false, value := none, indicator := cond.ma_type.getD "" }
    | some latestStock =>
      let currentPrice := latestStock.close
      let indicator := cond.ma_type.getD "" ++ "_" ++ toString (cond.window.getD 0)
      if cond.op = "crossed_above" then
        let prevPrice :=
          if stockGroup.length > 1 then
            ((jsIdx stockGroup ((stockGroup.length : ℤ) - 2)).map (·.close)).getD currentPrice
          else currentPrice
        { passed := decide (prevPrice ≤ maValue) && decide (maValue < currentPrice),
          value := some maValue, indicator := indicator }
      else if cond.op = "crossed_below" then
        let prevPrice :=
          if stockGroup.length > 1 then
            ((jsIdx stockGroup ((stockGroup.length : ℤ) - 2)).map (·.close)).getD currentPrice
          else currentPrice
        { passed := decide (maValue ≤ prevPrice) && decide (currentPrice < maValue),
          value := some maValue, indicator := indicator }
      else if cond.op = "proximity_within" then
        let threshold := cond.value.getD 0
        { passed := decide (|currentPrice - maValue| / maValue ≤ threshold / 100),
          value := some maValue, indicator := indicator }
      else
        { passed := SE.cmp currentPrice cond.op (Ind.Target.num maValue),
          value := some maValue, indicator := indicator }

end SE

/-! ### OpenRouter multi-model fallback compiler (`unnamed/part_001`) -/

/-- The JSON object a model may return, with the three schema fields the
 source validates plus the optional fallback explanation. -/
structure LLMJson where
  category : Option ℕ := none
  conditions : Option (List ParsedCondition) := none
  confidence : Option String := none
  llmFallback : Option String := none
  deriving DecidableEq, Repr

/-- Outcome of one external model call, as observed by
 `tryModelWithConfidence`: a transport-level failure (`!response.ok` or a
 thrown fetch error), an empty `content`, content that is not JSON, or a
 parsed JSON object. -/
inductive ModelResponse where
  | httpError
  | emptyContent
  | invalidJson
  | json (j : LLMJson)
  deriving DecidableEq, Repr

/-- JavaScript truthiness of `parsed.category` (absent or `0` is falsy). -/
def truthyNat : Option ℕ → Bool
  | none => false
  | some n => n != 0

/-- JavaScript truthiness of `parsed.confidence` (absent or `""` is falsy). -/
def truthyStr : Option String → Bool
  | none => false
  | some s => s != ""

/-- JavaScript truthiness of `parsed.conditions` (any array is truthy). -/
def truthyList : Option (List ParsedCondition) → Bool
  | none => false
  | some _ => true

/-- Embeds `tryModelWithConfidence` (`unnamed/part_001` lines 802-876): every
 failure mode — transport error, empty content, malformed JSON, missing
 schema fields — yields `null` (`none`); a schema-valid response yields the
 assembled `ParsedQuery`.  `parsed.llmFallback || null` maps the empty string
 to `null`. -/
def tryModelWithConfidence (resp : ModelResponse) (model : String) : Option ParsedQuery :=
  match resp with
  | ModelResponse.httpError => none
  | ModelResponse.emptyContent => none
  | ModelResponse.invalidJson => none
  | ModelResponse.json j =>
    if truthyNat j.category && truthyList j.conditions && truthyStr j.confidence then
      some { category := j.category.getD 0,
             conditions := j.conditions.getD [],
             confidence := j.confidence.getD "",
             parser := "llm",
             llmFallback := match j.llmFallback with | some "" => none | x => x,
             modelUsed := some model,
             modelsAttempted := [] }
    else none

/-- The ordered candidate list `FREE_MODELS` (`unnamed/part_001` lines 409-418). -/
def FREE_MODELS : List String :=
  ["x-ai/grok-4-fast:free",
   "z-ai/glm-4.5-air:free",
   "deepseek/deepseek-chat-v3.1:free",
   "meta-llama/llama-4-maverick:free",
   "google/gemini-2.0-flash-exp:free",
   "mistralai/mistral-small-3.2-24b-instruct:free",
   "qwen/qwen3-coder:free",
   "moonshotai/kimi-k2:free"]

/-- The result returned when `OPENROUTER_API_KEY` is not configured. -/
def noKeyFallback : ParsedQuery :=
  { category := 11, conditions := [], confidence := "low", parser := "llm",
    llmFallback := some "OPENROUTER_API_KEY not configured",
    modelUsed := none, modelsAttempted := [] }

/-- The result returned when every candidate was tried without a
 high-confidence success (`unnamed/part_001` lines 917-925). -/
def exhaustedFallback (attempted : List String) : ParsedQuery :=
  { category := 11, conditions := [], confidence := "low", parser := "llm",
    llmFallback := some "Could not parse query with high confidence after trying all available models",
    modelUsed := none, modelsAttempted := attempted }

/-- The candidate loop of `parseWithLLMs`: try each model in order, return on
 the first high-confidence result, otherwise fall through to the exhausted
 fallback.  A non-high result is *not* remembered. -/
def parseLoop (oracle : String → ModelResponse) : List String → List String → ParsedQuery
  | attempted, [] => exhaustedFallback attempted
  | attempted, m :: rest =>
    let attempted' := attempted ++ [m]
    match tryModelWithConfidence (oracle m) m with
    | some r =>
      if r.confidence = "high" then { r with modelsAttempted := attempted' }
      else parseLoop oracle attempted' rest
    | none => parseLoop oracle attempted' rest

/-- Embeds `parseWithLLMs` (`unnamed/part_001` lines 882-926).  The external
 provider is abstracted as an oracle from model identifier to observed
 response; `apiKeyConfigured` models the `OPENROUTER_API_KEY` guard. -/
def parseWithLLMs (apiKeyConfigured : Bool) (oracle : String → ModelResponse) : ParsedQuery :=
  if apiKeyConfigured then parseLoop oracle [] FREE_MODELS else noKeyFallback

/-! ### Rule-based query parser (`unnamed/part_005`)

The rules of `parseQueryRegex` are hand-compiled from the source's regular
expressions into executable backtracking matchers with JavaScript `exec`
semantics: leftmost starting position first, ordered alternation, greedy
`*`/`+`/`?` and lazy `.*?`, each with backtracking. -/

/-- A matcher returns the candidate (capture, rest-of-input) splits in the
 order the regex engine explores them. -/
abbrev M (α : Type) : Type := List Char → List (α × List Char)

/-- Matcher returning `a` without consuming input. -/
def pureM {α : Type} (a : α) : M α := fun cs => [(a, cs)]

/-- Sequencing with full backtracking. -/
def bindM {α β : Type} (m : M α) (f : α → M β) : M β :=
  fun cs => (m cs).flatMap fun p => f p.1 p.2

/-- Ordered alternation. -/
def altM {α : Type} (m1 m2 : M α) : M α := fun cs => m1 cs ++ m2 cs

/-- Literal string. -/
def litM (s : String) : M String := fun cs =>
  if cs.take s.data.length = s.data then [(s, cs.drop s.data.length)] else []

/-- Ordered alternation of literal strings, as a regex `(a|b|...)` group. -/
def litAlts (ss : List String) : M String := fun cs => ss.flatMap fun s => litM s cs

/-- Greedy `+` over a character class: every nonempty prefix of the maximal
 run, longest first. -/
def charsWhile1 (p : Char → Bool) : M (List Char) := fun cs =>
  let run := cs.takeWhile p
  let rest := cs.drop run.length
  (List.range run.length).map fun j =>
    let k := run.length - j
    (run.take k, run.drop k ++ rest)

/-- Greedy `\s*`. -/
def spacesStar : M Unit := fun cs =>
  let n := (cs.takeWhile Char.isWhitespace).length
  (List.range (n + 1)).map fun j => ((), cs.drop (n - j))

/-- Greedy `\s+`. -/
def spaces1 : M Unit := fun cs =>
  (charsWhile1 Char.isWhitespace cs).map fun p => ((), p.2)

/-- Greedy `?`: the present alternative is tried first. -/
def optM {α : Type} (m : M α) : M (Option α) := fun cs =>
  ((m cs).map fun p => (some p.1, p.2)) ++ [(none, cs)]

/-- Lazy `.*?` (`.` matches anything but a line break): shorter skips first. -/
def dotStarLazy : M Unit := fun cs =>
  ((List.range (cs.length + 1)).filter fun i =>
    (cs.take i).all fun c => !(c = '\n' || c = '\r')).map fun i => ((), cs.drop i)

/-- JavaScript word character (`\w`). -/
def isWordChar (c : Char) : Bool := c.isAlphanum || c = '_'

/-- Word-boundary assertion `\b` at a point where the previously consumed
 character is known to be a word character: succeeds when the next character
 is absent or not a word character. -/
def boundaryAfterWord : M Unit := fun cs =>
  match cs with
  | [] => [((), [])]
  | c :: _ => if isWordChar c then [] else [((), cs)]

/-- Capture the text consumed by a matcher (regex capturing group). -/
def withText {α : Type} (m : M α) : M (List Char) := fun cs =>
  (m cs).map fun p => (cs.take (cs.length - p.2.length), p.2)

/-- Scan for the leftmost starting position whose `\b` boundary assertion
 holds and where the matcher succeeds; this is `RegExp.exec` for a pattern
 beginning with `\b`. -/
def execRuleGo {α : Type} (m : M α) : Option Char → List Char → Option α
  | prev, cs =>
    let wPrev := match prev with | some c => isWordChar c | none => false
    let wHere := match cs.head? with | some c => isWordChar c | none => false
    if wPrev != wHere then
      match m cs with
      | (a, _) :: _ => some a
      | [] =>
        match cs with
        | [] => none
        | c :: rest => execRuleGo m (some c) rest
    else
      match cs with
      | [] => none
      | c :: rest => execRuleGo m (some c) rest

/-- Run a `\b`-anchored rule against the whole input. -/
def execRule {α : Type} (m : M α) (cs : List Char) : Option α := execRuleGo m none cs

/-- Digits to a natural number (`parseInt` on a `\d+` capture). -/
def digitsToNat (ds : List Char) : ℕ := ds.foldl (fun n c => 10 * n + (c.toNat - 48)) 0

/-- JavaScript `parseFloat` on a `-?\d+(\.\d+)?` capture. -/
def parseDec (cs : List Char) : ℚ :=
  let neg := cs.head? = some '-'
  let cs' := if neg then cs.tail else cs
  let intPart := cs'.takeWhile Char.isDigit
  let rest := cs'.drop intPart.length
  let fracPart := match rest with
    | '.' :: f => f
    | _ => []
  let mag : ℚ := (digitsToNat intPart : ℚ) + (digitsToNat fracPart : ℚ) / (10 : ℚ) ^ fracPart.length
  if neg then -mag else mag

/-- Whitespace trim on character lists (JavaScript `String.trim`). -/
def jsTrim (cs : List Char) : List Char :=
  ((cs.dropWhile Char.isWhitespace).reverse.dropWhile Char.isWhitespace).reverse

/-- Embeds `normalizeOperator` (`unnamed/part_005` lines 27-42); the
 lowercase-and-trim of the source is computed on the character list. -/
def normalizeOperator (op : String) : String :=
  let key := String.mk (jsTrim (op.data.map Char.toLower))
  if key = "greater than" then ">"
  else if key = "more than" then ">"
  else if key = "above" then ">"
  else if key = "less than" then "<"
  else if key = "below" then "<"
  else if key = "greater than or equal to" then ">="
  else if key = "at least" then ">="
  else if key = "less than or equal to" then "<="
  else if key = "at most" then "<="
  else if key = "equal to" then "=="
  else if key = "equals" then "=="
  else op

/-- Rule 1: `\brsi\s*(?:(\d+))?\s*(>|>=|<|<=|above|below|greater than|less than)\s*(\d+(?:\.\d+)?)`. -/
def rsiMatcher : M (Option (List Char) × String × List Char) :=
  bindM (litM "rsi") fun _ =>
  bindM spacesStar fun _ =>
  bindM (optM (charsWhile1 Char.isDigit)) fun w =>
  bindM spacesStar fun _ =>
  bindM (litAlts [">", ">=", "<", "<=", "above", "below", "greater than", "less than"]) fun op =>
  bindM spacesStar fun _ =>
  bindM (bindM (charsWhile1 Char.isDigit) fun d =>
         bindM (optM (bindM (litM ".") fun _ => charsWhile1 Char.isDigit)) fun frac =>
         pureM (match frac with | some f => d ++ '.' :: f | none => d)) fun v =>
  pureM (w, op, v)

/-- The `(\d+(?:\.\d+)?)` capture used by several rules. -/
def numM : M (List Char) :=
  bindM (charsWhile1 Char.isDigit) fun d =>
  bindM (optM (bindM (litM ".") fun _ => charsWhile1 Char.isDigit)) fun frac =>
  pureM (match frac with | some f => d ++ '.' :: f | none => d)

/-- The `(-?\d+(?:\.\d+)?)` capture. -/
def negNumM : M (List Char) :=
  bindM (optM (litM "-")) fun s =>
  bindM numM fun d =>
  pureM (match s with | some _ => '-' :: d | none => d)

/-- Rule 2: `\bstoch(?:astic)?\b.*?(>|>=|<|<=|greater than|less than|above|below)\s*(\d+(?:\.\d+)?)`. -/
def stochMatcher : M (String × List Char) :=
  bindM (litM "stoch") fun _ =>
  bindM (optM (litM "astic")) fun _ =>
  bindM boundaryAfterWord fun _ =>
  bindM dotStarLazy fun _ =>
  bindM (litAlts [">", ">=", "<", "<=", "greater than", "less than", "above", "below"]) fun op =>
  bindM spacesStar fun _ =>
  bindM numM fun v =>
  pureM (op, v)

/-- Rule 3: `\bcci\s*(?:(\d+))?\s*(>|>=|<|<=|above|below)\s*(-?\d+(?:\.\d+)?)`. -/
def cciMatcher : M (Option (List Char) × String × List Char) :=
  bindM (litM "cci") fun _ =>
  bindM spacesStar fun _ =>
  bindM (optM (charsWhile1 Char.isDigit)) fun w =>
  bindM spacesStar fun _ =>
  bindM (litAlts [">", ">=", "<", "<=", "above", "below"]) fun op =>
  bindM spacesStar fun _ =>
  bindM negNumM fun v =>
  pureM (w, op, v)

/-- The `(crossed\s+above|crossed\s+below|above|below)` capturing group. -/
def crossedOpM : M (List Char) :=
  withText
    (altM (bindM (litM "crossed") fun _ => bindM spaces1 fun _ => bindM (litM "above") fun _ => pureM ())
    (altM (bindM (litM "crossed") fun _ => bindM spaces1 fun _ => bindM (litM "below") fun _ => pureM ())
    (altM (bindM (litM "above") fun _ => pureM ())
          (bindM (litM "below") fun _ => pureM ()))))

/-- Rule 4: `\b(?:price|close)?\s*(crossed\s+above|crossed\s+below|above|below)\s+(sma|ema|wma|hma|kama|dema|tema|zlma)\s+(\d+)`. -/
def priceMAMatcher : M (List Char × String × List Char) :=
  bindM (optM (litAlts ["price", "close"])) fun _ =>
  bindM spacesStar fun _ =>
  bindM crossedOpM fun opText =>
  bindM spaces1 fun _ =>
  bindM (litAlts ["sma", "ema", "wma", "hma", "kama", "dema", "tema", "zlma"]) fun maType =>
  bindM spaces1 fun _ =>
  bindM (charsWhile1 Char.isDigit) fun w =>
  pureM (opText, maType, w)

/-- Rule 5: `\bwithin\s+(\d+(?:\.\d+)?)%?\s+of\s+(sma|...)\s+(\d+)`. -/
def withinMAMatcher : M (List Char × String × List Char) :=
  bindM (litM "within") fun _ =>
  bindM spaces1 fun _ =>
  bindM numM fun v =>
  bindM (optM (litM "%")) fun _ =>
  bindM spaces1 fun _ =>
  bindM (litM "of") fun _ =>
  bindM spaces1 fun _ =>
  bindM (litAlts ["sma", "ema", "wma", "hma", "kama", "dema", "tema", "zlma"]) fun maType =>
  bindM spaces1 fun _ =>
  bindM (charsWhile1 Char.isDigit) fun w =>
  pureM (v, maType, w)

/-- Rule 6: `\brs\s+(?:vs|versus)\s+(\w+)\s*(>|>=|<|<=|greater than|less than|above|below)\s*(\d+(?:\.\d+)?)` (case-insensitive on the lowercased input). -/
def rsMatcher : M (List Char × String × List Char) :=
  bindM (litM "rs") fun _ =>
  bindM spaces1 fun _ =>
  bindM (litAlts ["vs", "versus"]) fun _ =>
  bindM spaces1 fun _ =>
  bindM (charsWhile1 isWordChar) fun bench =>
  bindM spacesStar fun _ =>
  bindM (litAlts [">", ">=", "<", "<=", "greater than", "less than", "above", "below"]) fun op =>
  bindM spacesStar fun _ =>
  bindM numM fun v =>
  pureM (bench, op, v)

/-- Rule 7: `\b(?:up|above)\s+(\d+(?:\.\d+)?)%?\s+from\s+(1d|1w|1m|3m|6m|52w|ytd)_low\b`. -/
def upFromLowMatcher : M (List Char × String) :=
  bindM (litAlts ["up", "above"]) fun _ =>
  bindM spaces1 fun _ =>
  bindM numM fun v =>
  bindM (optM (litM "%")) fun _ =>
  bindM spaces1 fun _ =>
  bindM (litM "from") fun _ =>
  bindM spaces1 fun _ =>
  bindM (litAlts ["1d", "1w", "1m", "3m", "6m", "52w", "ytd"]) fun ref =>
  bindM (litM "_low") fun _ =>
  bindM boundaryAfterWord fun _ =>
  pureM (v, ref)

/-- Rule 8: `\b(?:down|below)\s+(\d+(?:\.\d+)?)%?\s+from\s+(1d|1w|1m|3m|6m|52w|ytd)_high\b`. -/
def downFromHighMatcher : M (List Char × String) :=
  bindM (litAlts ["down", "below"]) fun _ =>
  bindM spaces1 fun _ =>
  bindM numM fun v =>
  bindM (optM (litM "%")) fun _ =>
  bindM spaces1 fun _ =>
  bindM (litM "from") fun _ =>
  bindM spaces1 fun _ =>
  bindM (litAlts ["1d", "1w", "1m", "3m", "6m", "52w", "ytd"]) fun ref =>
  bindM (litM "_high") fun _ =>
  bindM boundaryAfterWord fun _ =>
  pureM (v, ref)

/-- Rule 9: `\bwithin\s+(\d+(?:\.\d+)?)%?\s+of\s+(52w)_high\b`. -/
def withinHighMatcher : M (List Char) :=
  bindM (litM "within") fun _ =>
  bindM spaces1 fun _ =>
  bindM numM fun v =>
  bindM (optM (litM "%")) fun _ =>
  bindM spaces1 fun _ =>
  bindM (litM "of") fun _ =>
  bindM spaces1 fun _ =>
  bindM (litM "52w") fun _ =>
  bindM (litM "_high") fun _ =>
  bindM boundaryAfterWord fun _ =>
  pureM v

/-- JavaScript `hay.includes(sub)` on character sequences. -/
def seqContains : List Char → List Char → Bool
  | hay, sub =>
    if hay.take sub.length = sub then true
    else
      match hay with
      | [] => false
      | _ :: t => seqContains t sub

/-- The result shape of `parseQueryRegex`. -/
structure RegexResult where
  success : Bool
  filter : Option ParsedQuery := none
  deriving DecidableEq, Repr

/-- The `ok` helper of `unnamed/part_005` lines 47-55: every successful rule
 wraps its condition with `confidence: high` and `parser: regex`. -/
def okFilter (category : ℕ) (c : ParsedCondition) : RegexResult :=
  { success := true,
    filter := some { category := category, conditions := [c],
                     confidence := "high", parser := "regex" } }

/-- Embeds `parseQueryRegex` (`unnamed/part_005` lines 44-132): lowercase the
 input, try the nine rules in order, first match wins. -/
def parseQueryRegex (text : String) : RegexResult :=
  let cs := text.data.map Char.toLower
  match execRule rsiMatcher cs with
  | some (w, op, v) =>
    okFilter 1 { category := 1, indicator := some "rsi",
                 window := some (match w with | some d => digitsToNat d | none => 14),
                 op := normalizeOperator op, value := some (parseDec v) }
  | none =>
  match execRule stochMatcher cs with
  | some (op, v) =>
    okFilter 1 { category := 1, indicator := some "stoch", window := some 14,
                 op := normalizeOperator op, value := some (parseDec v) }
  | none =>
  match execRule cciMatcher cs with
  | some (w, op, v) =>
    okFilter 1 { category := 1, indicator := some "cci",
                 window := some (match w with | some d => digitsToNat d | none => 20),
                 op := normalizeOperator op, value := some (parseDec v) }
  | none =>
  match execRule priceMAMatcher cs with
  | some (opText, maType, w) =>
    let op :=
      if seqContains opText "crossed".data then
        (if seqContains opText "above".data then "crossed_above" else "crossed_below")
      else (if seqContains opText "above".data then ">" else "<")
    okFilter 2 { category := 2, ma_type := some maType, window := some (digitsToNat w), op := op }
  | none =>
  match execRule withinMAMatcher cs with
  | some (v, maType, w) =>
    okFilter 2 { category := 2, ma_type := some maType, window := some (digitsToNat w),
                 op := "proximity_within", value := some (parseDec v) }
  | none =>
  match execRule rsMatcher cs with
  | some (bench, op, v) =>
    okFilter 3 { category := 3, benchmark := some (String.mk bench),
                 op := normalizeOperator op, value := some (parseDec v) }
  | none =>
  match execRule upFromLowMatcher cs with
  | some (v, ref) =>
    okFilter 4 { category := 4, reference := some (ref ++ "_low"), op := ">",
                 value := some (parseDec v / 100) }
  | none =>
  match execRule downFromHighMatcher cs with
  | some (v, ref) =>
    okFilter 4 { category := 4, reference := some (ref ++ "_high"), op := "<",
                 value := some (parseDec v / 100) }
  | none =>
  match execRule withinHighMatcher cs with
  | some v =>
    okFilter 4 { category := 4, reference := some "52w_high", op := "between",
                 value := some (parseDec v / 100) }
  | none => { success := false }

/-! ### Concrete fixtures used by witnesses and counterexamples -/

/-- Convenience constructor for a flat bar. -/
def mkBar (s : String) (d : ℕ) (c : ℚ) : StockData :=
  { symbol := s, date := d, opn := c, high := c, low := c, close := c, volume := 100 }

/-- Fifty bars of strictly increasing closes for one symbol. -/
def data50 : List StockData := (List.range 50).map fun i => mkBar "AAA" (i + 1) ((i : ℚ) + 1)

/-- Forty-nine bars of strictly increasing closes for one symbol. -/
def data49 : List StockData := (List.range 49).map fun i => mkBar "AAA" (i + 1) ((i : ℚ) + 1)

/-- Fifteen bars with closes `10, 11, ..., 24`. -/
def data15 : List StockData := (List.range 15).map fun i => mkBar "AAA" (i + 1) ((i : ℚ) + 10)

/-- The `RSI above 70` filter. -/
def rsiFilter : ParsedQuery :=
  { category := 1,
    conditions := [{ category := 1, indicator := some "rsi", window := some 14, op := ">", value := some 70 }],
    confidence := "high", parser := "regex" }

/-! ### Helper lemmas -/

/-- The gains accumulator of the RSI loop equals the sum of positive parts. -/
theorem foldl_gains (l : List ℚ) (a : ℚ) :
    l.foldl (fun g c => if 0 < c then g + c else g) a = a + (l.map fun c => max c 0).sum := by
  induction l generalizing a with
  | nil => simp
  | cons x xs ih =>
    simp only [List.foldl_cons, List.map_cons, List.sum_cons]
    rw [ih]
    by_cases h : 0 < x
    · rw [if_pos h, max_eq_left h.le]; ring
    · rw [if_neg h, max_eq_right (not_lt.mp h)]; ring

/-- The losses accumulator of the RSI loop equals the sum of negative parts. -/
theorem foldl_losses (l : List ℚ) (a : ℚ) :
    l.foldl (fun g c => if 0 < c then g else g + |c|) a = a + (l.map fun c => max (-c) 0).sum := by
  induction l generalizing a with
  | nil => simp
  | cons x xs ih =>
    simp only [List.foldl_cons, List.map_cons, List.sum_cons]
    rw [ih]
    by_cases h : 0 < x
    · rw [if_pos h, max_eq_right (by linarith : -x ≤ 0)]; ring
    · rw [if_neg h, abs_of_nonpos (not_lt.mp h), max_eq_left (by linarith : (0:ℚ) ≤ -x)]; ring

/-- On a strictly increasing list, adjacent pairs increase. -/
theorem chain'_zip_lt : ∀ {l : List ℚ}, List.Chain' (· < ·) l →
    ∀ p ∈ l.zip l.tail, p.1 < p.2 := by
  intro l
  induction l with
  | nil => intro _ p hp; simp at hp
  | cons x xs ih =>
    intro h p hp
    cases xs with
    | nil => simp at hp
    | cons y ys =>
      rw [List.chain'_cons] at h
      rw [List.tail_cons, List.zip_cons_cons, List.mem_cons] at hp
      rcases hp with rfl | hp
      · exact h.1
      · exact ih h.2 p hp

/-! ### C3 and C9 — RSI -/

/-- C3: for a chronologically ordered series with at least `period + 1` bars,
 `calculateRSI` returns exactly the spec formula
 `100 - 100/(1 + avgGain/avgLoss)` over the last `period` close-to-close
 deltas (with `avgGain = gains/period`, `avgLoss = losses/period`), returns
 exactly `100` when `avgLoss = 0`, and in particular returns `100` on any
 strictly increasing close series (e.g. 15 closes `10, 11, ..., 24` with
 period 14). -/
theorem rsi_matches_spec_formula (data : List StockData) (period : ℕ)
    (_hp : 0 < period) (hl : period + 1 ≤ data.length) :
    calculateRSI data period = some (rsiSpec (data.map (·.close)) period)
    ∧ (rsiLossSum (data.map (·.close)) period = 0 → calculateRSI data period = some 100)
    ∧ (List.Chain' (· < ·) (data.map (·.close)) → calculateRSI data period = some 100) := by
  have hnot : ¬(data.length < period + 1) := by omega
  have hmain : calculateRSI data period = some (rsiSpec (data.map (·.close)) period) := by
    unfold calculateRSI rsiSpec rsiGainSum rsiLossSum
    rw [if_neg hnot]
    simp only [foldl_gains, foldl_losses, zero_add]
    split_ifs <;> rfl
  have hloss : rsiLossSum (data.map (·.close)) period = 0 →
      calculateRSI data period = some 100 := by
    intro h0
    rw [hmain]
    unfold rsiSpec
    rw [h0]
    norm_num
  refine ⟨hmain, hloss, ?_⟩
  intro hchain
  apply hloss
  apply List.sum_eq_zero
  intro x hx
  rw [List.mem_map] at hx
  obtain ⟨c, hc, rfl⟩ := hx
  have hmem : c ∈ (((data.map (·.close)).zip (data.map (·.close)).tail).map fun p => p.2 - p.1) :=
    List.drop_subset _ _ hc
  rw [List.mem_map] at hmem
  obtain ⟨p, hp', rfl⟩ := hmem
  have hlt := chain'_zip_lt hchain p hp'
  exact max_eq_right (by linarith)

/-- Witness for `rsi_matches_spec_formula` at the spec's example: 15 bars of
 closes `10..24`, period 14. -/
theorem rsi_matches_spec_formula_witness :
    calculateRSI data15 14 = some 100 :=
  (rsi_matches_spec_formula data15 14 (by decide) (by decide)).2.2
    (by rw [List.chain'_iff_get]; decide)

/-- C9: whenever `calculateRSI` produces a value, that value lies in
 `[0, 100]` (gains and losses are sums of non-negative terms, and the
 `avgLoss = 0` branch returns exactly 100). -/
theorem rsi_value_bounded (data : List StockData) (period : ℕ) (r : ℚ)
    (h : calculateRSI data period = some r) : 0 ≤ r ∧ r ≤ 100 := by
  unfold calculateRSI at h
  split at h
  · exact absurd h (by simp)
  · simp only [foldl_gains, foldl_losses, zero_add] at h
    set G : ℚ := ((rsiChanges (data.map (·.close)) period).map fun c => max c 0).sum with hG
    set L : ℚ := ((rsiChanges (data.map (·.close)) period).map fun c => max (-c) 0).sum with hL
    have hGpos : 0 ≤ G := by
      apply List.sum_nonneg
      intro x hx
      rw [List.mem_map] at hx
      obtain ⟨c, _, rfl⟩ := hx
      exact le_max_right _ _
    have hLpos : 0 ≤ L := by
      apply List.sum_nonneg
      intro x hx
      rw [List.mem_map] at hx
      obtain ⟨c, _, rfl⟩ := hx
      exact le_max_right _ _
    split at h
    · -- avgLoss = 0 branch: r = 100
      have : r = 100 := by exact_mod_cast (Option.some.injEq _ _).mp h |>.symm
      simp [this]
    · -- main branch
      rename_i hne
      have hr : r = 100 - 100 / (1 + G / (period : ℚ) / (L / (period : ℚ))) := by
        exact ((Option.some.injEq _ _).mp h).symm
      have hLq : 0 < L / (period : ℚ) := by
        rcases lt_or_eq_of_le (div_nonneg hLpos (by positivity : (0:ℚ) ≤ (period : ℚ))) with h' | h'
        · exact h'
        · exact absurd h'.symm hne
      have hGq : 0 ≤ G / (period : ℚ) := div_nonneg hGpos (by positivity)
      have hrs : 0 ≤ G / (period : ℚ) / (L / (period : ℚ)) := div_nonneg hGq hLq.le
      have hone : (0:ℚ) < 1 + G / (period : ℚ) / (L / (period : ℚ)) := by linarith
      have hd1 : 0 < 100 / (1 + G / (period : ℚ) / (L / (period : ℚ))) := by positivity
      have hd2 : 100 / (1 + G / (period : ℚ) / (L / (period : ℚ))) ≤ 100 :=
        div_le_self (by norm_num) (by linarith)
      constructor <;> [linarith [hr]; linarith [hr]]

/-- Witness for `rsi_value_bounded` at the 15-bar increasing series. -/
theorem rsi_value_bounded_witness : (0:ℚ) ≤ 100 ∧ (100:ℚ) ≤ 100 :=
  rsi_value_bounded data15 14 100 (by decide)

/-! ### C5 — the `==` epsilon, and C10 — unknown operators -/

/-- C5 counterexample: in the `unnamed/part_001` lines 387-396 variant of
 `compareValues`, `==` accepts a pair differing by `0.001`, which is not
 within `1e-4` — so "passes exactly when the values differ by less than
 1e-4" is false for that cited implementation (its epsilon is `0.01`). -/
theorem eq_epsilon_counterexample_part001 :
    compareValues01 70 "==" (70 + 1 / 1000) = true
    ∧ ¬(|(70 : ℚ) - (70 + 1 / 1000)| < 1 / 10000) := by decide

/-- C5 (amended): in the stock-screener edge function's `compareValues`,
 `==` passes exactly when the two values differ by less than `1e-4`, while
 the `unnamed/part_001` lines 387-396 variant uses epsilon `1e-2`; in both,
 value 70 against target 70 passes, against `70.00005` passes, and against
 `70.01` fails; the operators `>`, `>=`, `<`, `<=` compare exactly. -/
theorem eq_epsilon_table :
    (∀ a t : ℚ, compareValues a "==" t = true ↔ |a - t| < 1 / 10000)
    ∧ (∀ a t : ℚ, compareValues01 a "==" t = true ↔ |a - t| < 1 / 100)
    ∧ (compareValues 70 "==" 70 = true ∧ compareValues 70 "==" (70 + 5 / 100000) = true
        ∧ compareValues 70 "==" (70 + 1 / 100) = false)
    ∧ (compareValues01 70 "==" 70 = true ∧ compareValues01 70 "==" (70 + 5 / 100000) = true
        ∧ compareValues01 70 "==" (70 + 1 / 100) = false)
    ∧ (∀ a t : ℚ, compareValues a ">" t = true ↔ t < a)
    ∧ (∀ a t : ℚ, compareValues a ">=" t = true ↔ t ≤ a)
    ∧ (∀ a t : ℚ, compareValues a "<" t = true ↔ a < t)
    ∧ (∀ a t : ℚ, compareValues a "<=" t = true ↔ a ≤ t) := by
  refine ⟨?_, ?_, by decide, by decide, ?_, ?_, ?_, ?_⟩ <;>
    intro a t <;> simp [compareValues, compareValues01]

/-- Witness for `eq_epsilon_table` at value 70, target 70. -/
theorem eq_epsilon_table_witness : compareValues 70 "==" 70 = true :=
  (eq_epsilon_table.1 70 70).mpr (by decide)

/-- C10: an operator outside the supported set yields `false` from both
 `compareValues` (edge function) and the front-end executor's comparison, so
 an unrecognized operator can never make a condition pass. -/
theorem unknown_operator_never_passes :
    (∀ op : String, op ∉ ([">", ">=", "<", "<=", "=="] : List String) →
        ∀ a t : ℚ, compareValues a op t = false)
    ∧ (∀ op : String, op ∉ ([">", ">=", "<", "<=", "==", "between"] : List String) →
        ∀ v : ℚ, ∀ tgt : Ind.Target, SE.cmp v op tgt = false) := by
  constructor
  · intro op h a t
    simp only [List.mem_cons, List.not_mem_nil, or_false, not_or] at h
    obtain ⟨h1, h2, h3, h4, h5⟩ := h
    simp [compareValues, h1, h2, h3, h4, h5]
  · intro op h v tgt
    simp only [List.mem_cons, List.not_mem_nil, or_false, not_or] at h
    obtain ⟨h1, h2, h3, h4, h5, h6⟩ := h
    cases tgt <;> simp [SE.cmp, h1, h2, h3, h4, h5, h6]

/-- Witness for `unknown_operator_never_passes` at the operator
 `crossed_above`, which `compareValues` does not support. -/
theorem unknown_operator_never_passes_witness :
    compareValues 1 "crossed_above" 1 = false :=
  unknown_operator_never_passes.1 "crossed_above" (by decide) 1 1

/-! ### C2 and C6 — the multi-model fallback compiler -/

/-- A valid medium-confidence condition a model might return. -/
def mediumCondition : ParsedCondition :=
  { category := 1, indicator := some "rsi", window := some 14, op := ">", value := some 70 }

/-- A schema-valid JSON reply with `confidence: medium`. -/
def mediumJson : LLMJson :=
  { category := some 1, conditions := some [mediumCondition], confidence := some "medium" }

/-- Oracle: the first candidate replies with a valid medium-confidence parse,
 every later candidate fails with a transport error. -/
def oracleMedium : String → ModelResponse := fun m =>
  if m = "x-ai/grok-4-fast:free" then ModelResponse.json mediumJson else ModelResponse.httpError

/-- The `ParsedQuery` assembled from `mediumJson` by `tryModelWithConfidence`. -/
def mediumResult : ParsedQuery :=
  { category := 1, conditions := [mediumCondition], confidence := "medium",
    parser := "llm", modelUsed := some "x-ai/grok-4-fast:free" }

/-- Oracle on which every candidate fails. -/
def oracleErr : String → ModelResponse := fun _ => ModelResponse.httpError

/-- Helper: when no candidate yields a high-confidence result, the loop runs
 to the end and returns the exhausted fallback, regardless of any
 medium/low-confidence results seen along the way. -/
theorem parseLoop_no_high (oracle : String → ModelResponse) :
    ∀ (ms attempted : List String),
      (∀ m ∈ ms, ∀ r, tryModelWithConfidence (oracle m) m = some r → r.confidence ≠ "high") →
      parseLoop oracle attempted ms = exhaustedFallback (attempted ++ ms) := by
  intro ms
  induction ms with
  | nil => intro attempted _; simp [parseLoop]
  | cons m rest ih =>
    intro attempted h
    unfold parseLoop
    cases hr : tryModelWithConfidence (oracle m) m with
    | none =>
      dsimp only
      rw [ih (attempted ++ [m]) fun m' hm' => h m' (List.mem_cons_of_mem _ hm')]
      simp
    | some r =>
      have hne : ¬(r.confidence = "high") := h m (List.mem_cons_self m rest) r hr
      dsimp only
      rw [if_neg hne]
      rw [ih (attempted ++ [m]) fun m' hm' => h m' (List.mem_cons_of_mem _ hm')]
      simp

/-- C2 counterexample: the first candidate produces a parseable
 medium-confidence result, yet the compiler returns the category-11 unparsed
 fallback instead of that result — refuting "returns the last obtained
 medium/low-confidence parsed result; only when no candidate produced any
 parseable response does it return a category-11 result". -/
theorem fallback_discards_medium_counterexample :
    tryModelWithConfidence (oracleMedium "x-ai/grok-4-fast:free") "x-ai/grok-4-fast:free"
        = some mediumResult
    ∧ mediumResult.confidence = "medium"
    ∧ (parseWithLLMs true oracleMedium).category = 11
    ∧ (parseWithLLMs true oracleMedium).conditions = []
    ∧ (parseWithLLMs true oracleMedium).confidence = "low"
    ∧ parseWithLLMs true oracleMedium ≠ { mediumResult with modelsAttempted := FREE_MODELS } := by
  decide

/-- C2 (amended): whenever no candidate returns a schema-valid
 high-confidence result — even if some candidate returned a parseable
 medium/low-confidence one — the compiler returns the category-11 "unparsed"
 result with confidence `low` and a non-empty explanation; medium/low results
 are discarded, not returned. -/
theorem fallback_exhaustion_returns_unparsed (oracle : String → ModelResponse)
    (h : ∀ m ∈ FREE_MODELS, ∀ r, tryModelWithConfidence (oracle m) m = some r →
        r.confidence ≠ "high") :
    parseWithLLMs true oracle = exhaustedFallback FREE_MODELS
    ∧ (parseWithLLMs true oracle).category = 11
    ∧ (parseWithLLMs true oracle).confidence = "low"
    ∧ (parseWithLLMs true oracle).llmFallback.getD "" ≠ "" := by
  have hmain : parseWithLLMs true oracle = exhaustedFallback FREE_MODELS := by
    show parseLoop oracle [] FREE_MODELS = _
    rw [parseLoop_no_high oracle FREE_MODELS [] h]
    rfl
  refine ⟨hmain, ?_, ?_, ?_⟩ <;> rw [hmain] <;> decide

/-- Witness for `fallback_exhaustion_returns_unparsed`: every candidate
 errors. -/
theorem fallback_exhaustion_returns_unparsed_witness :
    parseWithLLMs true oracleErr = exhaustedFallback FREE_MODELS
    ∧ (parseWithLLMs true oracleErr).category = 11
    ∧ (parseWithLLMs true oracleErr).confidence = "low"
    ∧ (parseWithLLMs true oracleErr).llmFallback.getD "" ≠ "" :=
  fallback_exhaustion_returns_unparsed oracleErr
    (by intro m _ r hr; simp [oracleErr, tryModelWithConfidence] at hr)

/-- C6: (a) every single-candidate failure mode — transport error, empty
 content, malformed JSON, missing schema fields — is absorbed into a `none`
 skip rather than an exception; (b) after a failed candidate the loop
 advances to the next one and returns its high-confidence result; (c) when
 all candidates fail, the result has category 11, confidence `low`, a
 non-empty explanation, and records every attempted model. -/
theorem llm_candidate_failures_contained :
    (∀ model : String,
        tryModelWithConfidence ModelResponse.httpError model = none
        ∧ tryModelWithConfidence ModelResponse.emptyContent model = none
        ∧ tryModelWithConfidence ModelResponse.invalidJson model = none
        ∧ ∀ j : LLMJson, (j.category = none ∨ j.conditions = none ∨ j.confidence = none) →
            tryModelWithConfidence (ModelResponse.json j) model = none)
    ∧ (∀ (oracle : String → ModelResponse) (r : ParsedQuery),
        tryModelWithConfidence (oracle "x-ai/grok-4-fast:free") "x-ai/grok-4-fast:free" = none →
        tryModelWithConfidence (oracle "z-ai/glm-4.5-air:free") "z-ai/glm-4.5-air:free" = some r →
        r.confidence = "high" →
        parseWithLLMs true oracle =
          { r with modelsAttempted := ["x-ai/grok-4-fast:free", "z-ai/glm-4.5-air:free"] })
    ∧ (∀ oracle : String → ModelResponse,
        (∀ m ∈ FREE_MODELS, tryModelWithConfidence (oracle m) m = none) →
        (parseWithLLMs true oracle).category = 11
        ∧ (parseWithLLMs true oracle).confidence = "low"
        ∧ (parseWithLLMs true oracle).llmFallback.getD "" ≠ ""
        ∧ (parseWithLLMs true oracle).modelsAttempted = FREE_MODELS) := by
  refine ⟨?_, ?_, ?_⟩
  · intro model
    refine ⟨rfl, rfl, rfl, ?_⟩
    intro j hj
    unfold tryModelWithConfidence
    rcases hj with h | h | h <;> simp [h, truthyNat, truthyList, truthyStr]
  · intro oracle r h1 h2 h3
    show parseLoop oracle [] FREE_MODELS = _
    unfold FREE_MODELS parseLoop
    rw [h1]
    unfold parseLoop
    rw [h2]
    simp [h3]
  · intro oracle h
    have hmain : parseWithLLMs true oracle = exhaustedFallback FREE_MODELS := by
      show parseLoop oracle [] FREE_MODELS = _
      rw [parseLoop_no_high oracle FREE_MODELS []
        (fun m hm r hr => by rw [h m hm] at hr; exact absurd hr (by simp))]
      rfl
    refine ⟨?_, ?_, ?_, ?_⟩ <;> rw [hmain] <;> decide

/-- Witness for `llm_candidate_failures_contained`: a transport failure at a
 concrete model name, and the all-fail oracle. -/
theorem llm_candidate_failures_contained_witness :
    tryModelWithConfidence ModelResponse.httpError "x-ai/grok-4-fast:free" = none
    ∧ (parseWithLLMs true oracleErr).category = 11 :=
  ⟨(llm_candidate_failures_contained.1 "x-ai/grok-4-fast:free").1,
   (llm_candidate_failures_contained.2.2 oracleErr (fun _ _ => rfl)).1⟩

/-! ### C7 — percent change from reference -/

/-- The fold-based minimum is bounded by its seed. -/
theorem foldl_min_le_init (xs : List ℚ) : ∀ x : ℚ, xs.foldl min x ≤ x := by
  induction xs with
  | nil => intro x; simp
  | cons y ys ih => intro x; exact le_trans (ih (min x y)) (min_le_left x y)

/-- The fold-based minimum is a lower bound of the list. -/
theorem foldl_min_le_mem (xs : List ℚ) : ∀ (x : ℚ), ∀ y ∈ xs, xs.foldl min x ≤ y := by
  induction xs with
  | nil => intro x y hy; simp at hy
  | cons z zs ih =>
    intro x y hy
    rw [List.mem_cons] at hy
    rcases hy with rfl | hy
    · exact le_trans (foldl_min_le_init zs (min x y)) (min_le_right x y)
    · exact ih (min x z) y hy

/-- The fold-based minimum is the seed or an element. -/
theorem foldl_min_cases (xs : List ℚ) : ∀ x : ℚ, xs.foldl min x = x ∨ xs.foldl min x ∈ xs := by
  induction xs with
  | nil => intro x; simp
  | cons y ys ih =>
    intro x
    rcases ih (min x y) with h | h
    · rw [List.foldl_cons, h]
      rcases min_cases x y with ⟨h', _⟩ | ⟨h', _⟩
      · exact Or.inl h'
      · exact Or.inr (by rw [h']; exact List.mem_cons_self y ys)
    · exact Or.inr (List.mem_cons_of_mem _ h)

/-- `listMin` of a nonempty list is an element and a lower bound. -/
theorem listMin_spec (l : List ℚ) (h : l ≠ []) :
    Ind.listMin l ∈ l ∧ ∀ y ∈ l, Ind.listMin l ≤ y := by
  cases l with
  | nil => exact absurd rfl h
  | cons x xs =>
    constructor
    · rcases foldl_min_cases xs x with h' | h'
      · rw [Ind.listMin, h']; exact List.mem_cons_self x xs
      · exact List.mem_cons_of_mem _ h'
    · intro y hy
      rw [List.mem_cons] at hy
      rcases hy with rfl | hy
      · exact foldl_min_le_init xs y
      · exact foldl_min_le_mem xs x y hy

/-- The fold-based maximum is bounded below by its seed. -/
theorem foldl_max_ge_init (xs : List ℚ) : ∀ x : ℚ, x ≤ xs.foldl max x := by
  induction xs with
  | nil => intro x; simp
  | cons y ys ih => intro x; exact le_trans (le_max_left x y) (ih (max x y))

/-- The fold-based maximum is an upper bound of the list. -/
theorem foldl_max_ge_mem (xs : List ℚ) : ∀ (x : ℚ), ∀ y ∈ xs, y ≤ xs.foldl max x := by
  induction xs with
  | nil => intro x y hy; simp at hy
  | cons z zs ih =>
    intro x y hy
    rw [List.mem_cons] at hy
    rcases hy with rfl | hy
    · exact le_trans (le_max_right x y) (foldl_max_ge_init zs (max x y))
    · exact ih (max x z) y hy

/-- The fold-based maximum is the seed or an element. -/
theorem foldl_max_cases (xs : List ℚ) : ∀ x : ℚ, xs.foldl max x = x ∨ xs.foldl max x ∈ xs := by
  induction xs with
  | nil => intro x; simp
  | cons y ys ih =>
    intro x
    rcases ih (max x y) with h | h
    · rw [List.foldl_cons, h]
      rcases max_cases x y with ⟨h', _⟩ | ⟨h', _⟩
      · exact Or.inl h'
      · exact Or.inr (by rw [h']; exact List.mem_cons_self y ys)
    · exact Or.inr (List.mem_cons_of_mem _ h)

/-- `listMax` of a nonempty list is an element and an upper bound. -/
theorem listMax_spec (l : List ℚ) (h : l ≠ []) :
    Ind.listMax l ∈ l ∧ ∀ y ∈ l, y ≤ Ind.listMax l := by
  cases l with
  | nil => exact absurd rfl h
  | cons x xs =>
    constructor
    · rcases foldl_max_cases xs x with h' | h'
      · rw [Ind.listMax, h']; exact List.mem_cons_self x xs
      · exact List.mem_cons_of_mem _ h'
    · intro y hy
      rw [List.mem_cons] at hy
      rcases hy with rfl | hy
      · exact foldl_max_ge_init xs y
      · exact foldl_max_ge_mem xs x y hy

/-- Dropping all but the last element leaves exactly the last element. -/
theorem drop_pred_eq_getLast {α : Type} : ∀ (l : List α) (c : α),
    l.getLast? = some c → l.drop (l.length - 1) = [c] := by
  intro l
  induction l with
  | nil => intro c hc; simp at hc
  | cons x xs ih =>
    intro c hc
    cases xs with
    | nil => simp_all
    | cons y ys =>
      have h' := ih c (by rwa [List.getLast?_cons_cons] at hc)
      have : (x :: y :: ys).length - 1 = ((y :: ys).length - 1) + 1 := by
        simp [List.length_cons]
      rw [this, List.drop_succ_cons, h']

/-- C7: for a nonempty series with positive closes whose latest close is `C`,
 `calculatePercentageChangeFromRef` returns exactly `(C - L)/L` for
 `"52w_low"` where `L` is the minimum close of the last 252 bars, exactly
 `(C - H)/H` for `"52w_high"` where `H` is the maximum, and for `"1d_low"`
 the reference is the latest close itself, so the result is exactly `0`. -/
theorem pct_change_from_ref (data : List StockData) (_hpos : ∀ b ∈ data, 0 < b.close)
    (C : ℚ) (hC : (data.map (·.close)).getLast? = some C) :
    (∀ L, L ∈ sliceLast (data.map (·.close)) 252 →
        (∀ x ∈ sliceLast (data.map (·.close)) 252, L ≤ x) →
        Ind.calculatePercentageChangeFromRef data "52w_low" = some ((C - L) / L))
    ∧ (∀ H, H ∈ sliceLast (data.map (·.close)) 252 →
        (∀ x ∈ sliceLast (data.map (·.close)) 252, x ≤ H) →
        Ind.calculatePercentageChangeFromRef data "52w_high" = some ((C - H) / H))
    ∧ Ind.calculatePercentageChangeFromRef data "1d_low" = some 0 := by
  have hslice : sliceLast (data.map (·.close)) 252 ≠ [] := by
    intro hempty
    have hne : data.map (·.close) ≠ [] := by
      intro h0
      rw [h0] at hC
      simp at hC
    unfold sliceLast at hempty
    rw [if_neg (by norm_num : ¬(252 = 0))] at hempty
    have := congrArg List.length hempty
    simp only [List.length_drop, List.length_nil] at this
    have hlen : 0 < (data.map (·.close)).length := List.length_pos.mpr hne
    omega
  refine ⟨?_, ?_, ?_⟩
  · intro L hL hLb
    have hmin := listMin_spec _ hslice
    have : Ind.listMin (sliceLast (data.map (·.close)) 252) = L :=
      le_antisymm (hmin.2 L hL) (hLb _ hmin.1)
    simp [Ind.calculatePercentageChangeFromRef, hC, this]
  · intro H hH hHb
    have hmax := listMax_spec _ hslice
    have : Ind.listMax (sliceLast (data.map (·.close)) 252) = H :=
      le_antisymm (hHb _ hmax.1) (hmax.2 H hH)
    simp [Ind.calculatePercentageChangeFromRef, hC, this]
  · have h1 : sliceLast (data.map (·.close)) 1 = [C] := by
      unfold sliceLast
      rw [if_neg (by norm_num : ¬(1 = 0))]
      exact drop_pred_eq_getLast _ C hC
    simp [Ind.calculatePercentageChangeFromRef, hC, h1, Ind.listMin]

/-- Three bars with closes `4, 2, 6` for the `pct_change_from_ref` witness. -/
def pcData : List StockData := [mkBar "X" 1 4, mkBar "X" 2 2, mkBar "X" 3 6]

/-- Witness for `pct_change_from_ref`: minimum 2, latest close 6, result
 `(6 - 2)/2 = 2`. -/
theorem pct_change_from_ref_witness :
    Ind.calculatePercentageChangeFromRef pcData "52w_low" = some ((6 - 2) / 2) :=
  (pct_change_from_ref pcData (by decide) 6 (by decide)).1 2 (by decide) (by decide)

/-! ### C4 — the 50-bar minimum-history gate -/

/-- The last element of a list is a member. -/
theorem getLast?_mem' {α : Type} : ∀ (l : List α) (a : α), l.getLast? = some a → a ∈ l := by
  intro l
  induction l with
  | nil => intro a ha; simp at ha
  | cons x xs ih =>
    intro a ha
    cases xs with
    | nil => simp_all
    | cons y ys =>
      rw [List.getLast?_cons_cons] at ha
      exact List.mem_cons_of_mem _ (ih a ha)

/-- Sorting preserves length. -/
theorem length_sortByDate (l : List StockData) : (sortByDate l).length = l.length :=
  (List.perm_insertionSort _ l).length_eq

/-- Sorting preserves membership. -/
theorem mem_sortByDate {x : StockData} {l : List StockData} :
    x ∈ sortByDate l ↔ x ∈ l :=
  (List.perm_insertionSort _ l).mem_iff

/-- C4: (a) every symbol in the screening output has at least 50 rows in the
 input dataset — a group with fewer rows is silently skipped, never an error
 (screenStocks is total); (b) a symbol with exactly 50 strictly increasing
 bars is eligible and matches the RSI filter; (c) the same symbol with
 exactly 49 bars never appears in the output. -/
theorem min_history_gate :
    (∀ (data : List StockData) (filter : ParsedQuery) (r : ResultRow),
        r ∈ screenStocks data filter →
        50 ≤ (data.filter fun b => b.symbol = r.symbol).length)
    ∧ (screenStocks data50 rsiFilter).map (fun r => r.symbol) = ["AAA"]
    ∧ screenStocks data49 rsiFilter = [] := by
  refine ⟨?_, by decide, by decide⟩
  intro data filter r hr
  unfold screenStocks at hr
  rw [List.mem_flatMap] at hr
  obtain ⟨kg, hkg, hr⟩ := hr
  unfold groupBySymbol at hkg
  rw [List.mem_map] at hkg
  obtain ⟨k, _, rfl⟩ := hkg
  dsimp only at hr
  by_cases hlen : (sortByDate (data.filter fun row => row.symbol = k)).length < 50
  · rw [if_pos hlen] at hr
    simp at hr
  · rw [if_neg hlen] at hr
    cases hhead : filter.conditions.head? with
    | none => rw [hhead] at hr; simp at hr
    | some cond =>
      rw [hhead] at hr
      dsimp only at hr
      by_cases hpass :
          (applyCondition (sortByDate (data.filter fun row => row.symbol = k)) cond).pass
      · rw [if_pos hpass] at hr
        cases hlast : (sortByDate (data.filter fun row => row.symbol = k)).getLast? with
        | none => rw [hlast] at hr; simp at hr
        | some lastRow =>
          rw [hlast] at hr
          have hsym : r.symbol = lastRow.symbol := by
            rw [List.mem_singleton] at hr
            rw [hr]
          have hmem : lastRow ∈ data.filter fun row => row.symbol = k :=
            mem_sortByDate.mp (getLast?_mem' _ _ hlast)
          have hksym : lastRow.symbol = k := by
            have := List.of_mem_filter hmem
            exact of_decide_eq_true this
          rw [hsym, hksym]
          have := length_sortByDate (data.filter fun row => row.symbol = k)
          omega
      · rw [if_neg hpass] at hr
        simp at hr

/-- Witness for `min_history_gate`: the matched record of the 50-bar
 dataset, giving the filtered group length bound at that symbol. -/
theorem min_history_gate_witness :
    50 ≤ (data50.filter fun b => b.symbol = "AAA").length :=
  min_history_gate.1 data50 rsiFilter
    { symbol := "AAA", close := 50, volume := 100, change := 100 / 49,
      indicator_value := 100, indicator_name := "rsi" }
    (by decide)

/-! ### C8 — determinism and shape of the rule-based parser -/

/-- C8: the rule-based parser is a pure function — re-running it on the same
 text yields the identical result — and whenever it succeeds the returned
 filter carries `confidence: high` and `parser: regex`; moreover it succeeds
 exactly when it returns a filter. -/
theorem regex_parse_deterministic_high_confidence (text : String) :
    parseQueryRegex text = parseQueryRegex text
    ∧ (∀ f, (parseQueryRegex text).filter = some f →
        f.confidence = "high" ∧ f.parser = "regex")
    ∧ (parseQueryRegex text).success = ((parseQueryRegex text).filter).isSome := by
  refine ⟨rfl, ?_, ?_⟩
  · intro f hf
    unfold parseQueryRegex at hf
    dsimp only at hf
    repeat' split at hf
    all_goals simp only [okFilter, Option.some.injEq] at hf
    all_goals first
      | exact Option.noConfusion hf
      | (subst hf; exact ⟨rfl, rfl⟩)
  · unfold parseQueryRegex
    dsimp only
    repeat' split
    all_goals simp [okFilter]

/-- The filter produced for `rsi > 70`. -/
def rsiParsedW : ParsedQuery :=
  { category := 1,
    conditions := [{ category := 1, indicator := some "rsi", window := some 14,
                     op := ">", value := some 70 }],
    confidence := "high", parser := "regex" }

/-- Witness for `regex_parse_deterministic_high_confidence` at the query
 `rsi > 70`. -/
theorem regex_parse_deterministic_high_confidence_witness :
    rsiParsedW.confidence = "high" ∧ rsiParsedW.parser = "regex" :=
  (regex_parse_deterministic_high_confidence "rsi > 70").2.1 rsiParsedW (by decide)

/-! ### C1 — crossover semantics -/

/-- Length of the SMA series. -/
theorem smaSeries_length (p : ℕ) (hp : p ≠ 0) (vals : List ℚ) :
    (Ind.smaSeries p vals).length = vals.length + 1 - p := by
  simp [Ind.smaSeries, hp]

/-- Element `i` of the SMA series is the mean of the window starting at `i`. -/
theorem smaSeries_get? (p : ℕ) (hp : p ≠ 0) (vals : List ℚ) (i : ℕ)
    (hi : i < vals.length + 1 - p) :
    (Ind.smaSeries p vals).get? i = some (((vals.drop i).take p).sum / (p : ℚ)) := by
  simp only [Ind.smaSeries, hp, if_neg, ite_false, List.get?_map, List.get?_range hi,
    Option.map_some]
  simp [hp]

/-- A window that stays clear of the final element is unchanged by
 `dropLast`. -/
theorem dropLast_window (l : List ℚ) (j w : ℕ) (h : j + w ≤ l.length - 1) :
    (l.dropLast.drop j).take w = (l.drop j).take w := by
  rw [List.dropLast_eq_take, List.drop_take, List.take_take]
  congr 1
  omega

/-- Mapping commutes with `dropLast`. -/
theorem map_dropLast' (f : StockData → ℚ) (l : List StockData) :
    l.dropLast.map f = (l.map f).dropLast := by
  rw [List.dropLast_eq_take, List.dropLast_eq_take, List.map_take, List.length_map]

/-- Evaluation of the `crossed_above` branch of the `part_003` evaluator
 with an SMA, for a nonempty series. -/
theorem handlePriceVsMA_crossed_above_eval (d : List StockData) (win : ℕ) (lr : StockData)
    (hlast : jsIdx d ((d.length : ℤ) - 1) = some lr) :
    (Ind.handlePriceVsMA d
      { category := 2, ma_type := some "sma", window := some win, op := "crossed_above" }).pass
    = (optLE ((jsIdx d ((d.length : ℤ) - 2)).map (·.close))
             (jsIdx (Ind.smaSeries win (d.map (·.close)))
                    (((Ind.smaSeries win (d.map (·.close))).length : ℤ) - 2))
       && optLT (jsIdx (Ind.smaSeries win (d.map (·.close)))
                    (((Ind.smaSeries win (d.map (·.close))).length : ℤ) - 1))
               (some lr.close)) := by
  unfold Ind.handlePriceVsMA
  rw [hlast]
  simp

/-- Evaluation of the `crossed_below` branch of the `part_003` evaluator
 with an SMA, for a nonempty series. -/
theorem handlePriceVsMA_crossed_below_eval (d : List StockData) (win : ℕ) (lr : StockData)
    (hlast : jsIdx d ((d.length : ℤ) - 1) = some lr) :
    (Ind.handlePriceVsMA d
      { category := 2, ma_type := some "sma", window := some win, op := "crossed_below" }).pass
    = (optLE (jsIdx (Ind.smaSeries win (d.map (·.close)))
                    (((Ind.smaSeries win (d.map (·.close))).length : ℤ) - 2))
             ((jsIdx d ((d.length : ℤ) - 2)).map (·.close))
       && optLT (some lr.close)
               (jsIdx (Ind.smaSeries win (d.map (·.close)))
                    (((Ind.smaSeries win (d.map (·.close))).length : ℤ) - 1))) := by
  unfold Ind.handlePriceVsMA
  rw [hlast]
  simp

/-- C1 (amended): in the `part_003` evaluator, with `prevC`/`currC` the
 previous/current closes and `prevM`/`currM` the previous/current bar's SMA
 values, category-2 `crossed_above` passes exactly when the previous close is
 at or below the previous bar's MA value and the current close is above the
 current bar's MA value (`crossed_below` symmetrically); in particular when
 `close[t-1] < MA[t-1]` and `close[t] > MA[t]` it passes at bar `t` and does
 not pass at bar `t-1`.  (The `screenExecutor.ts` variant behaves
 differently — see the counterexample.) -/
theorem crossedAbove_uses_prev_bar_ma (data : List StockData) (win : ℕ)
    (hw : 0 < win) (hn : win + 1 ≤ data.length)
    (prevC currC prevM currM : ℚ)
    (hpc : (data.map (·.close)).get? (data.length - 2) = some prevC)
    (hcc : (data.map (·.close)).get? (data.length - 1) = some currC)
    (hpm : (Ind.smaSeries win (data.map (·.close))).get?
        ((Ind.smaSeries win (data.map (·.close))).length - 2) = some prevM)
    (hcm : (Ind.smaSeries win (data.map (·.close))).get?
        ((Ind.smaSeries win (data.map (·.close))).length - 1) = some currM) :
    ((Ind.handlePriceVsMA data
        { category := 2, ma_type := some "sma", window := some win, op := "crossed_above" }).pass = true
      ↔ (prevC ≤ prevM ∧ currM < currC))
    ∧ ((Ind.handlePriceVsMA data
        { category := 2, ma_type := some "sma", window := some win, op := "crossed_below" }).pass = true
      ↔ (prevM ≤ prevC ∧ currC < currM))
    ∧ (prevC < prevM → currM < currC →
        (Ind.handlePriceVsMA data
          { category := 2, ma_type := some "sma", window := some win, op := "crossed_above" }).pass = true)
    ∧ (prevC < prevM →
        (Ind.handlePriceVsMA data.dropLast
          { category := 2, ma_type := some "sma", window := some win, op := "crossed_above" }).pass = false) := by
  have hw' : win ≠ 0 := by omega
  have hclen : (data.map (·.close)).length = data.length := by simp
  have hslen : (Ind.smaSeries win (data.map (·.close))).length = data.length + 1 - win := by
    rw [smaSeries_length win hw', hclen]
  -- unpack the data rows behind the close lookups
  rw [List.get?_map] at hpc hcc
  obtain ⟨lastRow, hlastRow, hlrc⟩ := Option.map_eq_some'.mp hcc
  obtain ⟨prevRow, hprevRow, hprc⟩ := Option.map_eq_some'.mp hpc
  have hjlast : jsIdx data ((data.length : ℤ) - 1) = some lastRow := by
    unfold jsIdx
    rw [if_neg (by omega), show ((data.length : ℤ) - 1).toNat = data.length - 1 by omega]
    exact hlastRow
  have hjprev : (jsIdx data ((data.length : ℤ) - 2)).map (·.close) = some prevC := by
    unfold jsIdx
    rw [if_neg (by omega), show ((data.length : ℤ) - 2).toNat = data.length - 2 by omega]
    rw [hprevRow]
    simp [hprc]
  have hjpm : jsIdx (Ind.smaSeries win (data.map (·.close)))
      (((Ind.smaSeries win (data.map (·.close))).length : ℤ) - 2) = some prevM := by
    unfold jsIdx
    rw [if_neg (by omega),
      show (((Ind.smaSeries win (data.map (·.close))).length : ℤ) - 2).toNat
        = (Ind.smaSeries win (data.map (·.close))).length - 2 by omega]
    exact hpm
  have hjcm : jsIdx (Ind.smaSeries win (data.map (·.close)))
      (((Ind.smaSeries win (data.map (·.close))).length : ℤ) - 1) = some currM := by
    unfold jsIdx
    rw [if_neg (by omega),
      show (((Ind.smaSeries win (data.map (·.close))).length : ℤ) - 1).toNat
        = (Ind.smaSeries win (data.map (·.close))).length - 1 by omega]
    exact hcm
  have habove := handlePriceVsMA_crossed_above_eval data win lastRow hjlast
  have hbelow := handlePriceVsMA_crossed_below_eval data win lastRow hjlast
  rw [hjprev, hjpm, hjcm, hlrc] at habove hbelow
  have hiff1 : (Ind.handlePriceVsMA data
      { category := 2, ma_type := some "sma", window := some win, op := "crossed_above" }).pass = true
      ↔ (prevC ≤ prevM ∧ currM < currC) := by
    rw [habove]
    simp [optLE, optLT]
  have hiff2 : (Ind.handlePriceVsMA data
      { category := 2, ma_type := some "sma", window := some win, op := "crossed_below" }).pass = true
      ↔ (prevM ≤ prevC ∧ currC < currM) := by
    rw [hbelow]
    simp [optLE, optLT]
  refine ⟨hiff1, hiff2, fun h1 h2 => hiff1.mpr ⟨h1.le, h2⟩, ?_⟩
  -- the truncated series: its last bar is the previous bar, its last SMA
  -- value is the previous bar's SMA value
  intro hlt
  have hdl : data.dropLast.length = data.length - 1 := by simp
  have hdlast : jsIdx data.dropLast ((data.dropLast.length : ℤ) - 1) = some prevRow := by
    unfold jsIdx
    rw [if_neg (by omega), show ((data.dropLast.length : ℤ) - 1).toNat = data.dropLast.length - 1 by omega]
    rw [hdl]
    rw [List.dropLast_eq_take, List.get?_take (by omega : data.length - 1 - 1 < data.length - 1)]
    rw [show data.length - 1 - 1 = data.length - 2 by omega]
    exact hprevRow
  have heval := handlePriceVsMA_crossed_above_eval data.dropLast win prevRow hdlast
  have hclose' : data.dropLast.map (·.close) = (data.map (·.close)).dropLast :=
    map_dropLast' _ data
  have hlen' : (data.dropLast.map (·.close)).length = data.length - 1 := by simp
  have hsma' : jsIdx (Ind.smaSeries win (data.dropLast.map (·.close)))
      (((Ind.smaSeries win (data.dropLast.map (·.close))).length : ℤ) - 1) = some prevM := by
    have hk' : (Ind.smaSeries win (data.dropLast.map (·.close))).length
        = data.length - win := by
      rw [smaSeries_length win hw', hlen']
      omega
    unfold jsIdx
    rw [if_neg (by omega),
      show (((Ind.smaSeries win (data.dropLast.map (·.close))).length : ℤ) - 1).toNat
        = (Ind.smaSeries win (data.dropLast.map (·.close))).length - 1 by omega]
    rw [hk']
    rw [smaSeries_get? win hw' _ (data.length - win - 1) (by rw [hlen']; omega)]
    -- identify the window with the full series' second-to-last window
    rw [hclose']
    rw [dropLast_window _ _ _ (by rw [hclen]; omega : data.length - win - 1 + win ≤ (data.map (·.close)).length - 1)]
    rw [smaSeries_get? win hw' _ ((Ind.smaSeries win (data.map (·.close))).length - 2)
      (by rw [hclen]; omega)] at hpm
    rw [show (Ind.smaSeries win (data.map (·.close))).length - 2 = data.length - win - 1 by omega] at hpm
    exact hpm
  rw [heval, hsma', hprc]
  have : ¬ (prevM < prevC) := by linarith
  simp [optLT, this]

/-- Three bars with closes `10, 1, 5` for the crossover witness. -/
def cwData : List StockData := [mkBar "W" 1 10, mkBar "W" 2 1, mkBar "W" 3 5]

/-- Witness for `crossedAbove_uses_prev_bar_ma`: closes `10, 1, 5`, window 2
 — previous close 1 below previous SMA `11/2`, current close 5 above current
 SMA 3, so `crossed_above` passes at the last bar. -/
theorem crossedAbove_uses_prev_bar_ma_witness :
    (Ind.handlePriceVsMA cwData
      { category := 2, ma_type := some "sma", window := some 2, op := "crossed_above" }).pass = true :=
  (crossedAbove_uses_prev_bar_ma cwData 2 (by decide) (by decide) 1 5 (11 / 2) 3
    (by decide) (by decide) (by decide) (by decide)).2.2.1 (by decide) (by decide)

/-- Four bars with closes `100, 1, 10, 15` for the counterexample. -/
def ceData : List StockData :=
  [mkBar "X" 1 100, mkBar "X" 2 1, mkBar "X" 3 10, mkBar "X" 4 15]

/-- C1 counterexample: with closes `100, 1, 10, 15` and window 3, the
 previous close 10 is strictly below the previous bar's SMA 37 and the
 current close 15 is strictly above the current bar's SMA `26/3`, yet the
 `screenExecutor.ts` category-2 evaluator does **not** pass `crossed_above`
 (it compares the previous close against the current bar's MA value) — while
 the `part_003` evaluator does pass.  The claim's "passes exactly when"
 characterization is therefore false for the cited `screenExecutor.ts`
 evaluator. -/
theorem crossedAbove_screenExecutor_counterexample :
    ((ceData.map (·.close)).get? 2 = some 10
      ∧ (ceData.map (·.close)).get? 3 = some 15
      ∧ (Ind.smaSeries 3 (ceData.map (·.close))).get? 0 = some 37
      ∧ (Ind.smaSeries 3 (ceData.map (·.close))).get? 1 = some (26 / 3)
      ∧ (10 : ℚ) < 37 ∧ (26 / 3 : ℚ) < 15)
    ∧ (SE.applyConditionCat2 ceData
        { category := 2, ma_type := some "sma", window := some 3, op := "crossed_above" }).passed = false
    ∧ (Ind.handlePriceVsMA ceData
        { category := 2, ma_type := some "sma", window := some 3, op := "crossed_above" }).pass = true := by
  decide
